import Mathlib

/-!
Verification of the contextual garment-feature classifier in
`analyzer_gltf_improved.py` (class `ImprovedGLTFAnalyzer`).

The Python source is shallowly embedded: dictionaries with a fixed shape
become structures, optional JSON keys become `Option` fields, Python dicts
used as ordered maps become association lists with insert-or-replace
semantics, and Python sets become duplicate-free lists in insertion order
(no claim depends on set iteration order).  Python floats are represented by
their exact rational values.  The garment-element confidence accumulation —
the one computation whose rounding observably flips a threshold comparison —
is embedded with correctly rounded binary64 arithmetic (`float64Round`,
validated against CPython on every reachable input); the remaining
confidence computations compare or `min`/`max` single literals, where the
double and rational comparisons coincide, except for the aggregator's sums
and averages which are taken over exact rationals.  The `re.findall`
calls are embedded by a small matcher implementing exactly the three regular
expressions appearing in the source (word boundaries `\b`, literal
alternation, `[_\s]*`, `\d+`, `[\d.]+`), with `\w` and `\d` read as their
ASCII classes.
-/

namespace Moving

set_option maxRecDepth 4000

/-- Python `needle in haystack` on lowercase strings: `litMatches n h` is
`True` when `n` is a prefix of `h` (left-to-right character comparison). -/
def litMatches : List Char → List Char → Bool
  | [], _ => true
  | _ :: _, [] => false
  | a :: as, b :: bs => a == b && litMatches as bs

/-- Substring containment, Python's `in` operator on strings. -/
def occursInL : List Char → List Char → Bool
  | n, [] => litMatches n []
  | n, h :: hs => litMatches n (h :: hs) || occursInL n hs

/-- Python `kw in s` for strings. -/
def occursIn (n s : String) : Bool := occursInL n.data s.data

/-- Python `max` over a list, with the head as the starting value
(the source only applies `max` to non-empty lists; `[]` gives the default). -/
def listMaxD (d : ℚ) : List ℚ → ℚ
  | [] => d
  | x :: xs => xs.foldl max x

/-- Python `min` over a list (non-empty in the source; `[]` gives default). -/
def listMinD (d : ℚ) : List ℚ → ℚ
  | [] => d
  | x :: xs => xs.foldl min x

/-- Python dict assignment `m[k] = v`: replace in place if the key exists
(keeping its original position), otherwise append at the end. -/
def dictInsert {α : Type} : List (String × α) → String → α → List (String × α)
  | [], k, v => [(k, v)]
  | (k', v') :: rest, k, v =>
      if k' = k then (k, v) :: rest else (k', v') :: dictInsert rest k v

/-- Python `dict.update` with an ordered list of key/value pairs. -/
def dictUpdate {α : Type} (m : List (String × α)) (kvs : List (String × α)) :
    List (String × α) :=
  kvs.foldl (fun acc kv => dictInsert acc kv.1 kv.2) m

/-- Python `set.add` modelled on an insertion-ordered duplicate-free list. -/
def setAdd (l : List String) (x : String) : List String :=
  if x ∈ l then l else l ++ [x]

/-- Python `set.update` with a list of new entries. -/
def setUpdate (l : List String) (xs : List String) : List String :=
  xs.foldl setAdd l

/-! ## Pattern tables (`ImprovedGLTFAnalyzer.__init__`) -/

/-- One entry of `self.garment_context_patterns`. -/
structure CategoryPatterns where
  primary : List String
  context : List String
  exclusions : List String
  deriving DecidableEq

/-- `self.garment_context_patterns`, in dict insertion order. -/
def garment_context_patterns : List (String × CategoryPatterns) :=
  [("closures",
    { primary := ["zipper", "button", "snap", "velcro", "closure", "fastener",
                  "cremallera", "botón"]
      context := ["front", "back", "side", "pocket", "cuff", "collar",
                  "frontal", "lateral"]
      exclusions := ["texture", "pattern", "decoration", "logo", "textura",
                     "patrón", "decoración"] }),
   ("body_parts",
    { primary := ["sleeve", "collar", "cuff", "hem", "waist", "chest", "back",
                  "front", "manga", "cuello"]
      context := ["left", "right", "upper", "lower", "main", "body",
                  "izquierda", "derecha"]
      exclusions := ["texture", "shadow", "light", "camera", "textura",
                     "sombra", "luz"] }),
   ("construction",
    { primary := ["seam", "stitch", "binding", "trim", "lining", "dart",
                  "pleat", "costura", "puntada"]
      context := ["construction", "sewing", "assembly", "join",
                  "construcción", "cosido"]
      exclusions := ["decoration", "pattern", "print", "decoración", "patrón",
                     "estampado"] })]

/-- `self.fabric_indicators`, flattened in dict insertion order
(category order: natural, synthetic, stretch; the Python code never uses the
category name, only iterates the nested dicts in this order). -/
def fabric_indicators : List (String × List String) :=
  [("cotton", ["cotton", "algodón", "coton"]),
   ("wool", ["wool", "lana", "laine"]),
   ("silk", ["silk", "seda", "soie"]),
   ("linen", ["linen", "lino", "lin"]),
   ("polyester", ["polyester", "poliéster"]),
   ("nylon", ["nylon", "nilón"]),
   ("acrylic", ["acrylic", "acrílico"]),
   ("elastane", ["elastane", "elastano", "spandex", "lycra"]),
   ("elastic", ["elastic", "elástico", "stretch", "estirable"])]

/-! ## Scene data model (parsed glTF JSON, `Option` = absent key) -/

/-- One entry of `gltf_data["meshes"]`. -/
structure Mesh where
  name : Option String
  deriving DecidableEq

/-- `material["extensions"]["CLO_material_properties"]` when present and
non-empty (Python tests the dict for truthiness). -/
structure CloExt where
  stretchWarp : Option ℚ
  stretchWeft : Option ℚ
  weight : Option ℚ
  thickness : Option ℚ
  deriving DecidableEq

/-- `material["pbrMetallicRoughness"]` when present and non-empty.
Texture slots hold `.get("index")`, hence `Option (Option ℕ)`. -/
structure PbrBlock where
  roughnessFactor : Option ℚ
  metallicFactor : Option ℚ
  baseColorTexture : Option (Option ℕ)
  metallicRoughnessTexture : Option (Option ℕ)
  deriving DecidableEq

/-- One entry of `gltf_data["materials"]`. -/
structure Material where
  name : Option String
  cloExt : Option CloExt
  pbr : Option PbrBlock
  normalTexture : Option (Option ℕ)
  deriving DecidableEq

/-- One entry of `gltf_data["textures"]`. -/
structure Texture where
  source : Option ℕ
  deriving DecidableEq

/-- One entry of `gltf_data["images"]`. -/
structure Image where
  name : Option String
  uri : Option String
  deriving DecidableEq

/-- One entry of `gltf_data["nodes"]`; `scale` kept when it is a list
(the source additionally checks `len(scale) == 3`). -/
structure Node where
  name : Option String
  scale : Option (List ℚ)
  deriving DecidableEq

/-- `gltf_data["asset"]`. -/
structure Asset where
  version : Option String
  generator : Option String
  deriving DecidableEq

/-- The parsed scene graph.  Each top-level collection is `Option` so that an
entirely absent key is representable; the source reads them uniformly with
`gltf_data.get(key, [])`. -/
structure GltfData where
  asset : Option Asset
  meshes : Option (List Mesh)
  materials : Option (List Material)
  textures : Option (List Texture)
  images : Option (List Image)
  nodes : Option (List Node)
  deriving DecidableEq

/-! ## Garment Element Detector (`_analyze_garment_elements_contextual`) -/

/-- One element appended to `category_elements`. -/
structure ElementMatch where
  element : String
  confidence : ℚ
  context_matches : List String
  exclusion_flags : List String
  validated : Bool
  deriving DecidableEq

/-- One entry of `element_analysis["detected_elements"]`. -/
structure CategoryDetection where
  category : String
  elements : List ElementMatch
  category_confidence : ℚ
  deriving DecidableEq

/-- One entry of the returned `garment_elements` list. -/
structure ElementAnalysis where
  mesh_name : String
  mesh_index : ℕ
  detected_elements : List CategoryDetection
  confidence_score : ℚ
  deriving DecidableEq

/-- `context_matches` collected for one mesh name (lowercased). -/
def context_matches (pats : CategoryPatterns) (lname : String) : List String :=
  pats.context.filter (fun w => occursIn w lname)

/-- `exclusion_matches` collected for one mesh name (lowercased). -/
def exclusion_matches (pats : CategoryPatterns) (lname : String) : List String :=
  pats.exclusions.filter (fun w => occursIn w lname)

/-- The exact-real reading of the confidence formula,
`min(1, max(0, 0.8 + 0.1*contexts - 0.3*exclusions))` — the formula as the
spec states it, over exact rationals.  The program computes it in binary64
floating point (`final_confidence_float` below), which differs at rounding
boundaries. -/
def final_confidence (c e : ℕ) : ℚ :=
  min 1 (max 0 (0.8 + 0.1 * c - 0.3 * e))

/-! Binary64 model.  A Python `float` is an IEEE-754 double; every double is
a rational, so doubles are represented by their exact rational values and
each arithmetic operation is followed by correct rounding to 53 significant
bits (round-to-nearest, ties-to-even).  Overflow and subnormals are far
outside the range of these confidence computations. -/

/-- `2^52`, the lower bound of the 53-bit mantissa window. -/
def twoPow52 : ℚ := 2 ^ 52

/-- `2^53`, the upper bound of the 53-bit mantissa window. -/
def twoPow53 : ℚ := 2 ^ 53

/-- Scale a positive rational by powers of two into `[2^52, 2^53)`,
returning the scaled value and the exponent used.  The fuel bounds the
search; 1200 covers the entire double range. -/
def scaleLoop : ℕ → ℚ → ℤ → (ℚ × ℤ)
  | 0, s, e => (s, e)
  | fuel + 1, s, e =>
      if s < twoPow52 then scaleLoop fuel (s * 2) (e + 1)
      else if twoPow53 ≤ s then scaleLoop fuel (s / 2) (e - 1)
      else (s, e)

/-- Round a positive rational to the nearest binary64 value
(ties-to-even). -/
def roundPos (q : ℚ) : ℚ :=
  let se := scaleLoop 1200 q 0
  let m0 : ℤ := se.1.floor
  let r := se.1 - (m0 : ℚ)
  let m : ℤ :=
    if r < 1 / 2 then m0
    else if (1 : ℚ) / 2 < r then m0 + 1
    else if m0 % 2 = 0 then m0 else m0 + 1
  (m : ℚ) / (2 : ℚ) ^ se.2

/-- Round a rational to the nearest binary64 value; this is also the value
of a Python float literal, which parses as the nearest double. -/
def float64Round (q : ℚ) : ℚ :=
  if q = 0 then 0 else if q < 0 then - roundPos (-q) else roundPos q

/-- Binary64 addition. -/
def fadd (x y : ℚ) : ℚ := float64Round (x + y)

/-- Binary64 subtraction. -/
def fsub (x y : ℚ) : ℚ := float64Round (x - y)

/-- `context_boost`: starts at `0.0` and accumulates `+= 0.1` per context
match, in float arithmetic. -/
def context_boost_float : ℕ → ℚ
  | 0 => 0
  | c + 1 => fadd (context_boost_float c) (float64Round 0.1)

/-- `exclusion_penalty`: starts at `0.0` and accumulates `+= 0.3` per
exclusion match, in float arithmetic. -/
def exclusion_penalty_float : ℕ → ℚ
  | 0 => 0
  | e + 1 => fadd (exclusion_penalty_float e) (float64Round 0.3)

/-- The confidence the program computes:
`min(1.0, max(0.0, base_confidence + context_boost - exclusion_penalty))`
with left-associated binary64 operations.  Python `min`/`max` only compare,
and comparisons of doubles coincide with comparisons of their exact rational
values, so no further rounding occurs.  Validated against CPython for every
reachable context/exclusion count (0..8 × 0..7). -/
def final_confidence_float (c e : ℕ) : ℚ :=
  min 1 (max 0 (fsub (fadd (float64Round 0.8) (context_boost_float c))
    (exclusion_penalty_float e)))

/-- Body of the `for keyword in patterns['primary']` loop: the element
appended for one keyword, `none` when the keyword is absent from the name or
its confidence fails the `> 0.5` threshold. -/
def elementFor (pats : CategoryPatterns) (lname : String) (kw : String) :
    Option ElementMatch :=
  if occursIn kw lname then
    let cms := context_matches pats lname
    let ems := exclusion_matches pats lname
    let conf := final_confidence_float cms.length ems.length
    if conf > 0.5 then
      some { element := kw, confidence := conf, context_matches := cms,
             exclusion_flags := ems,
             validated := decide (0 < cms.length) && decide (ems.length = 0) }
    else none
  else none

/-- `category_elements` for one category and one (lowercased) mesh name. -/
def categoryElements (pats : CategoryPatterns) (lname : String) :
    List ElementMatch :=
  pats.primary.filterMap (elementFor pats lname)

/-- The `detected_elements` entry built when `category_elements` is
non-empty; `category_confidence = max(elem confidence)`. -/
def mkCategoryDetection (cat : String) (els : List ElementMatch) :
    Option CategoryDetection :=
  match els with
  | [] => none
  | e :: es =>
      some { category := cat, elements := e :: es,
             category_confidence := listMaxD 0 ((e :: es).map (·.confidence)) }

/-- `detected_elements` for one mesh: the category loop of
`_analyze_garment_elements_contextual`. -/
def detectedElementsFor (rawName : String) : List CategoryDetection :=
  garment_context_patterns.filterMap
    (fun cp => mkCategoryDetection cp.1 (categoryElements cp.2 rawName.toLower))

/-- `_analyze_garment_elements_contextual`: meshes with an empty (or absent)
name are skipped; a mesh is kept only when some category fired, with
`confidence_score = max(category_confidence)`. -/
def analyze_garment_elements_contextual (g : GltfData) : List ElementAnalysis :=
  (g.meshes.getD []).enum.filterMap (fun im =>
    let raw := im.2.name.getD ""
    if raw = "" then none
    else
      match detectedElementsFor raw with
      | [] => none
      | c :: cs =>
          some { mesh_name := raw, mesh_index := im.1,
                 detected_elements := c :: cs,
                 confidence_score :=
                   listMaxD 0 ((c :: cs).map (·.category_confidence)) })

/-! ## Material Classifier (`_classify_fabric_from_pbr`) -/

/-- The classification dict returned by `_classify_fabric_from_pbr`. -/
structure FabricClassification where
  type : String
  confidence : ℚ
  reasoning : List String
  deriving DecidableEq

/-- The `fabric_name_match` scan: first fabric type (in table order) one of
whose indicator words occurs in the lowercased material name. -/
def fabricNameMatch (mat_name : String) : Option String :=
  (fabric_indicators.find? (fun fi => fi.2.any (fun ind => occursIn ind mat_name))).map
    (·.1)

/-- `_classify_fabric_from_pbr(roughness, metallic, mat_name)`; `mat_name` is
already lowercased by the caller. -/
def classify_fabric_from_pbr (roughness metallic : ℚ) (mat_name : String) :
    FabricClassification :=
  if metallic > 0.7 then
    { type := "metallic_hardware", confidence := 0.9,
      reasoning := ["High metallic factor indicates metal hardware"] }
  else
    let fnm := fabricNameMatch mat_name
    if metallic < 0.2 then
      if roughness > 0.8 then
        if fnm = some "cotton" ∨ fnm = some "linen" then
          { type := fnm.getD "", confidence := 0.9,
            reasoning := ["High roughness suggests rough woven fabric",
                          "Name validation supports " ++ fnm.getD ""] }
        else
          { type := "rough_fabric", confidence := 0.7,
            reasoning := ["High roughness suggests rough woven fabric"] }
      else if roughness < 0.3 then
        if fnm = some "silk" then
          { type := "silk", confidence := 0.9,
            reasoning := ["Low roughness suggests smooth fabric",
                          "Name validation supports silk"] }
        else
          { type := "smooth_fabric", confidence := 0.6,
            reasoning := ["Low roughness suggests smooth fabric"] }
      else
        { type := "standard_fabric", confidence := 0.5,
          reasoning := ["Medium roughness suggests standard fabric"] }
    else
      -- metallic in [0.2, 0.7]: neither branch fires, the initial
      -- classification dict is returned unchanged
      { type := "unknown", confidence := 0, reasoning := [] }

/-! ## Texture Cross-Validator (`_validate_material_with_textures`) -/

/-- One entry of `fabric_indicators_found`. -/
structure TexIndicator where
  type : String
  texture_type : String
  confidence : ℚ
  image_name : String
  deriving DecidableEq

/-- The `validation` dict returned by `_validate_material_with_textures`. -/
structure TexValidation where
  confidence : ℚ
  texture_indicators : List TexIndicator
  sources : List String
  deriving DecidableEq

/-- Values stored in a `MaterialAnalysis.properties` dict. -/
inductive PropValue where
  | num : ℚ → PropValue
  | bool : Bool → PropValue
  | str : String → PropValue
  | inds : List TexIndicator → PropValue
  deriving DecidableEq

/-- The `texture_refs` list: `(tex_type, texture.get('index'))` for each
populated slot, in source order (diffuse, metallic_roughness, normal). -/
def textureRefs (mat : Material) : List (String × Option ℕ) :=
  (match mat.pbr with
   | none => []
   | some p =>
       (match p.baseColorTexture with
        | some idx => [("diffuse", idx)]
        | none => []) ++
       (match p.metallicRoughnessTexture with
        | some idx => [("metallic_roughness", idx)]
        | none => [])) ++
  (match mat.normalTexture with
   | some idx => [("normal", idx)]
   | none => [])

/-- Resolve one texture reference to the lowercased image identifier:
`(image.get('name','') or image.get('uri','')).lower()`; `none` when the
texture or image index is missing / out of range. -/
def resolveImageName (textures : List Texture) (images : List Image)
    (texIndex : Option ℕ) : Option String :=
  match texIndex with
  | none => none
  | some ti =>
      match textures.get? ti with
      | none => none
      | some tex =>
          match tex.source with
          | none => none
          | some si =>
              match images.get? si with
              | none => none
              | some img =>
                  let nm := img.name.getD ""
                  some ((if nm = "" then img.uri.getD "" else nm).toLower)

/-- `_validate_material_with_textures`. -/
def validate_material_with_textures (mat : Material) (textures : List Texture)
    (images : List Image) : TexValidation :=
  let found : List TexIndicator :=
    (textureRefs mat).flatMap (fun tr =>
      match resolveImageName textures images tr.2 with
      | none => []
      | some image_name =>
          fabric_indicators.filterMap (fun fi =>
            if fi.2.any (fun ind => occursIn ind image_name) then
              some { type := fi.1, texture_type := tr.1,
                     confidence := if tr.1 = "diffuse" then 0.7 else 0.5,
                     image_name := image_name }
            else none))
  match found with
  | [] => { confidence := 0, texture_indicators := [], sources := [] }
  | f :: fs =>
      { confidence := listMaxD 0 ((f :: fs).map (·.confidence)),
        texture_indicators := f :: fs, sources := ["texture_analysis"] }

/-! ## Fabric properties (`_analyze_fabric_properties_advanced`) -/

/-- One value of `fabric_analysis['materials']`. -/
structure MaterialAnalysis where
  name : String
  index : ℕ
  properties : List (String × PropValue)
  confidence : ℚ
  validation_sources : List String
  deriving DecidableEq

/-- `fabric_analysis['confidence_distribution']` (set only when at least one
material was retained). -/
structure ConfidenceDistribution where
  high_confidence : ℕ
  medium_confidence : ℕ
  low_confidence : ℕ
  average : ℚ
  deriving DecidableEq

/-- The `fabric_analysis` dict returned by
`_analyze_fabric_properties_advanced`. -/
structure FabricAnalysis where
  materials : List (String × MaterialAnalysis)
  confidence_distribution : Option ConfidenceDistribution
  validation_methods : List String
  deriving DecidableEq

/-- `material.get('name', f'material_{i}')`. -/
def mat_name (i : ℕ) (mat : Material) : String :=
  mat.name.getD ("material_" ++ toString i)

/-- CLO3D vendor-extension step (lines 225-237 of the source): sets the
stretch/weight/thickness properties, confidence 0.95 and the
`CLO3D_extension` source when the extension block is present. -/
def clo_step (mat : Material) (ma : MaterialAnalysis) : MaterialAnalysis :=
  match mat.cloExt with
  | none => ma
  | some clo =>
      { ma with
        properties := dictUpdate ma.properties
          [("stretch_warp", .num (clo.stretchWarp.getD 0)),
           ("stretch_weft", .num (clo.stretchWeft.getD 0)),
           ("weight", .num (clo.weight.getD 0)),
           ("thickness", .num (clo.thickness.getD 0)),
           ("has_stretch", .bool (decide (clo.stretchWarp.getD 0 > 100000) ||
                                  decide (clo.stretchWeft.getD 0 > 100000)))]
        confidence := 0.95
        validation_sources := ma.validation_sources ++ ["CLO3D_extension"] }

/-- PBR classification step (lines 239-258): runs only when the
`pbrMetallicRoughness` dict is present and non-empty; raises the confidence
to the classification's when larger, never lowers it. -/
def pbr_step (mat : Material) (lname : String) (ma : MaterialAnalysis) :
    MaterialAnalysis :=
  match mat.pbr with
  | none => ma
  | some p =>
      let roughness := p.roughnessFactor.getD 0.5
      let metallic := p.metallicFactor.getD 0
      let fc := classify_fabric_from_pbr roughness metallic lname
      { ma with
        properties := dictUpdate ma.properties
          [("roughness", .num roughness), ("metallic", .num metallic),
           ("fabric_type", .str fc.type), ("pbr_confidence", .num fc.confidence)]
        confidence :=
          if ma.confidence < fc.confidence then fc.confidence else ma.confidence
        validation_sources := ma.validation_sources ++ ["PBR_analysis"] }

/-- Texture cross-validation step (lines 260-266): applies only when the
validator found something (`confidence > 0`); takes the max of the two
confidences. -/
def tex_step (mat : Material) (textures : List Texture) (images : List Image)
    (ma : MaterialAnalysis) : MaterialAnalysis :=
  let tv := validate_material_with_textures mat textures images
  if tv.confidence > 0 then
    { ma with
      properties := dictUpdate ma.properties
        [("texture_indicators", .inds tv.texture_indicators)]
      confidence := max ma.confidence tv.confidence
      validation_sources := ma.validation_sources ++ tv.sources }
  else ma

/-- The full per-material analysis: the body of the
`for i, material in enumerate(materials)` loop, before the retention test. -/
def analyzeMaterial (textures : List Texture) (images : List Image) (i : ℕ)
    (mat : Material) : MaterialAnalysis :=
  let name := mat_name i mat
  tex_step mat textures images
    (pbr_step mat name.toLower
      (clo_step mat
        { name := name, index := i, properties := [], confidence := 0,
          validation_sources := [] }))

/-- The per-material accumulation step on
`(fabric_analysis['materials'], fabric_analysis['validation_methods'])`.
Each analysis step appends to `validation_methods` exactly the tags it
appends to the material's own `validation_sources` (source lines 236-237,
257-258, 265-266), so the methods list grows by
`(analyzeMaterial ...).validation_sources` per material, retained or not. -/
def fabricStep (textures : List Texture) (images : List Image)
    (acc : List (String × MaterialAnalysis) × List String) (im : ℕ × Material) :
    List (String × MaterialAnalysis) × List String :=
  let ma := analyzeMaterial textures images im.1 im.2
  (if ma.confidence > 0.3 then dictInsert acc.1 (mat_name im.1 im.2) ma
   else acc.1,
   acc.2 ++ ma.validation_sources)

/-- `_analyze_fabric_properties_advanced`. -/
def analyze_fabric_properties_advanced (g : GltfData) : FabricAnalysis :=
  let textures := g.textures.getD []
  let images := g.images.getD []
  let acc := (g.materials.getD []).enum.foldl (fabricStep textures images)
    ([], [])
  let confidences := acc.1.map (·.2.confidence)
  { materials := acc.1
    confidence_distribution :=
      match confidences with
      | [] => none
      | _ :: _ =>
          some { high_confidence := (confidences.filter (fun c => c > 0.8)).length
                 medium_confidence :=
                   (confidences.filter (fun c => 0.6 ≤ c ∧ c ≤ 0.8)).length
                 low_confidence := (confidences.filter (fun c => c < 0.6)).length
                 average := confidences.sum / confidences.length }
    validation_methods := acc.2 }

/-! ## Regex embedding for `_analyze_size_variations_validated`

The three size patterns in the source are each of the shape `\b( ... | ... )\b`
where every alternative is a concatenation of literals, `[_\s]*`, `\d+` and
`[\d.]+`.  The matcher below implements exactly Python `re.findall` semantics
for this fragment: left-to-right scan, non-overlapping matches, alternatives
tried in order, greedy quantifiers with backtracking, `\w`/`\d` read as their
ASCII classes. -/

/-- One element of a regex alternative. -/
inductive RElem where
  | lit : String → RElem
  | usp : RElem
  | digits : RElem
  | digdot : RElem

/-- ASCII `\w`: letters, digits and underscore. -/
def wordChar (c : Char) : Bool := c.isAlphanum || c == '_'

/-- `[_\s]` character class. -/
def uspChar (c : Char) : Bool := c == '_' || c.isWhitespace

/-- `[\d.]` character class. -/
def digdotChar (c : Char) : Bool := c.isDigit || c == '.'

/-- Length of the longest run of characters satisfying `p` at the front. -/
def takeRun (p : Char → Bool) : List Char → ℕ
  | [] => 0
  | c :: cs => if p c then takeRun p cs + 1 else 0

/-- All ways one alternative can consume a prefix of `s`, as consumed
prefixes in backtracking priority order (greedy quantifiers first). -/
def possibleMatches : List RElem → List Char → List (List Char)
  | [], _ => [[]]
  | .lit w :: rest, s =>
      if litMatches w.data s then
        (possibleMatches rest (s.drop w.data.length)).map (w.data ++ ·)
      else []
  | .usp :: rest, s =>
      let n := takeRun uspChar s
      ((List.range (n + 1)).reverse).flatMap (fun k =>
        (possibleMatches rest (s.drop k)).map (s.take k ++ ·))
  | .digits :: rest, s =>
      let n := takeRun Char.isDigit s
      (((List.range n).reverse).map (· + 1)).flatMap (fun k =>
        (possibleMatches rest (s.drop k)).map (s.take k ++ ·))
  | .digdot :: rest, s =>
      let n := takeRun digdotChar s
      (((List.range n).reverse).map (· + 1)).flatMap (fun k =>
        (possibleMatches rest (s.drop k)).map (s.take k ++ ·))

/-- `\b` between two (possibly absent) adjacent characters. -/
def boundaryB (a b : Option Char) : Bool :=
  (match a with | none => false | some c => wordChar c) !=
  (match b with | none => false | some c => wordChar c)

/-- Try the whole pattern `\b(alt₁|alt₂|...)\b` at the current position:
alternatives in order, consumptions in priority order, requiring the
trailing word boundary; returns the consumed match and the rest. -/
def tryBranches (branches : List (List RElem)) (prev : Option Char)
    (s : List Char) : Option (List Char × List Char) :=
  if boundaryB prev s.head? then
    branches.findSome? (fun b =>
      (possibleMatches b s).findSome? (fun consumed =>
        match consumed with
        | [] => none
        | _ :: _ =>
            let rem := s.drop consumed.length
            if boundaryB consumed.getLast? rem.head? then some (consumed, rem)
            else none))
  else none

/-- Scanner for `re.findall`: advance one character on failure, continue
after the consumed text on success.  `fuel` bounds the recursion; every step
consumes at least one character, so `s.length` fuel is exact. -/
def findallAux (branches : List (List RElem)) :
    ℕ → Option Char → List Char → List String
  | 0, _, _ => []
  | _ + 1, _, [] => []
  | fuel + 1, prev, c :: rest =>
      match tryBranches branches prev (c :: rest) with
      | some (consumed, rem) =>
          String.mk consumed :: findallAux branches fuel consumed.getLast? rem
      | none => findallAux branches fuel (some c) rest

/-- `re.findall(pattern, s)` for the pattern fragment above. -/
def findall (branches : List (List RElem)) (s : String) : List String :=
  findallAux branches s.length none s.data

/-- `size_patterns['explicit_sizes']`. -/
def explicit_sizes_re : List (List RElem) :=
  [[.lit "xs"], [.lit "s"], [.lit "m"], [.lit "l"], [.lit "xl"], [.lit "xxl"],
   [.lit "xxxl"], [.lit "small"], [.lit "medium"], [.lit "large"],
   [.lit "chico"], [.lit "mediano"], [.lit "grande"]]

/-- `size_patterns['numeric_sizes']`. -/
def numeric_sizes_re : List (List RElem) :=
  [[.lit "size", .usp, .digits], [.lit "talla", .usp, .digits],
   [.digits, .usp, .lit "size"]]

/-- `size_patterns['scale_variants']`. -/
def scale_variants_re : List (List RElem) :=
  [[.lit "scale", .usp, .digdot], [.lit "variant", .usp, .digits],
   [.lit "escala", .usp, .digdot]]

/-- `size_patterns`, in dict insertion order. -/
def size_patterns : List (String × List (List RElem)) :=
  [("explicit_sizes", explicit_sizes_re), ("numeric_sizes", numeric_sizes_re),
   ("scale_variants", scale_variants_re)]

/-! ## Size-Variation Detector (`_analyze_size_variations_validated`) -/

/-- One entry of `size_analysis['size_indicators']`. -/
structure SizeIndicator where
  type : String
  value : String
  confidence : ℚ
  deriving DecidableEq

/-- `size_analysis['geometric_validation']` when set. -/
structure GeometricValidation where
  has_scale : Bool
  uniform_scale : Bool
  scale_factor : ℚ
  scale_variance : ℚ
  deriving DecidableEq

/-- One entry of the returned `size_variations` list. -/
structure SizeAnalysis where
  node_name : String
  node_index : ℕ
  size_indicators : List SizeIndicator
  confidence : ℚ
  geometric_validation : Option GeometricValidation
  deriving DecidableEq

/-- The indicators found in one (lowercased) node name. -/
def sizeIndicatorsFor (lname : String) : List SizeIndicator :=
  size_patterns.flatMap (fun pp =>
    (findall pp.2 lname).map (fun v =>
      { type := pp.1, value := v,
        confidence := if pp.1 = "explicit_sizes" then 0.8 else 0.6 }))

/-- The geometric validation dict for one node (set only for a 3-component
list-valued scale; `has_scale` is always `true` when set). -/
def geometricValidationFor (node : Node) : Option GeometricValidation :=
  match node.scale with
  | none => none
  | some sc =>
      if sc.length = 3 then
        some { has_scale := true
               uniform_scale := decide (listMaxD 0 sc - listMinD 0 sc < 0.1)
               scale_factor := sc.sum / 3
               scale_variance := listMaxD 0 sc - listMinD 0 sc }
      else none

/-- The final per-node confidence:
`min(1, max(indicator confidences) + 0.2·has_scale)`, 0 with no indicators
(the source leaves the initial 0.0 untouched then). -/
def sizeConfidence (inds : List SizeIndicator)
    (geo : Option GeometricValidation) : ℚ :=
  match inds with
  | [] => 0
  | _ :: _ =>
      min 1 (listMaxD 0 (inds.map (·.confidence)) +
        (if geo.isSome then 0.2 else 0))

/-- `_analyze_size_variations_validated`: nodes with an empty name are
skipped and only entries with confidence > 0.5 are kept. -/
def analyze_size_variations_validated (g : GltfData) : List SizeAnalysis :=
  (g.nodes.getD []).enum.filterMap (fun iv =>
    let raw := iv.2.name.getD ""
    if raw = "" then none
    else
      let inds := sizeIndicatorsFor raw.toLower
      let geo := geometricValidationFor iv.2
      if sizeConfidence inds geo > 0.5 then
        some { node_name := raw, node_index := iv.1, size_indicators := inds,
               confidence := sizeConfidence inds geo,
               geometric_validation := geo }
      else none)

/-! ## Accessibility Feature Evaluator (`_analyze_accessibility_features`,
`_evaluate_closure_accessibility`) -/

/-- One entry of the returned `accessibility_features` list. -/
structure AccessibilityFeature where
  type : String
  element : String
  mesh_name : String
  accessibility_score : ℚ
  confidence : ℚ
  validated : Bool
  deriving DecidableEq

/-- `_evaluate_closure_accessibility`: the fixed lookup table, 0.0 default. -/
def evaluate_closure_accessibility (closure_type : String) : ℚ :=
  if closure_type = "velcro" then 0.9
  else if closure_type = "magnetic" then 0.9
  else if closure_type = "snap" then 0.7
  else if closure_type = "zipper" then 0.6
  else if closure_type = "cremallera" then 0.6
  else if closure_type = "button" then 0.4
  else if closure_type = "botón" then 0.4
  else if closure_type = "tie" then 0.3
  else if closure_type = "toggle" then 0.5
  else 0

/-- `_analyze_accessibility_features`: walks the already-filtered garment
elements, keeps closures with a positive accessibility score. -/
def analyze_accessibility_features (garment_elements : List ElementAnalysis) :
    List AccessibilityFeature :=
  garment_elements.flatMap (fun ea =>
    ea.detected_elements.flatMap (fun cd =>
      if cd.category = "closures" then
        cd.elements.filterMap (fun m =>
          let score := evaluate_closure_accessibility m.element
          if score > 0 then
            some { type := "closure_accessibility", element := m.element,
                   mesh_name := ea.mesh_name, accessibility_score := score,
                   confidence := m.confidence, validated := m.validated }
          else none)
      else []))

/-! ## Confidence Aggregator (`_calculate_overall_confidence`) -/

/-- `_calculate_overall_confidence`: the source appends one
`average * weight` factor per non-empty subsystem to a list and sums it. -/
def calculate_overall_confidence (garment_elements : List ElementAnalysis)
    (fabric_properties : FabricAnalysis) (size_variations : List SizeAnalysis)
    (accessibility_features : List AccessibilityFeature) : ℚ :=
  let factors : List ℚ :=
    (match garment_elements with
     | [] => []
     | l => [(l.map (·.confidence_score)).sum / l.length * 0.4]) ++
    (match fabric_properties.materials with
     | [] => []
     | l => [(l.map (·.2.confidence)).sum / l.length * 0.3]) ++
    (match size_variations with
     | [] => []
     | l => [(l.map (·.confidence)).sum / l.length * 0.2]) ++
    (match accessibility_features with
     | [] => []
     | l => [(l.map (·.confidence)).sum / l.length * 0.1])
  factors.sum

/-! ## Validation sources and false positives -/

/-- `_collect_validation_sources`: a Python `set`, modelled as an
insertion-ordered duplicate-free list (no claim depends on set order). -/
def collect_validation_sources (fabric_properties : FabricAnalysis)
    (garment_elements : List ElementAnalysis) : List String :=
  let s1 := fabric_properties.materials.foldl
    (fun acc p => setUpdate acc p.2.validation_sources) []
  if garment_elements.any (fun ea =>
      ea.detected_elements.any (fun cd => cd.elements.any (·.validated))) then
    setAdd s1 "contextual_validation"
  else s1

/-- The fashion-tool indicators scanned against the generator string. -/
def fashionIndicators : List String := ["clo", "fashion", "textile", "garment"]

/-- `_detect_false_positives`. -/
def detect_false_positives (g : GltfData)
    (garment_elements : List ElementAnalysis)
    (fabric_properties : FabricAnalysis) : List String :=
  let generator :=
    ((g.asset.bind (·.generator)).getD "").toLower
  let total_elements :=
    (garment_elements.map (·.detected_elements.length)).sum
  (if ¬ fashionIndicators.any (fun fi => occursIn fi generator) then
    ["generator_not_fashion_specific"] else []) ++
  (if (total_elements : ℚ) > ((g.meshes.getD []).length : ℚ) * 0.8 then
    ["too_many_garment_elements_detected"] else []) ++
  (if fabric_properties.materials.length > (g.materials.getD []).length then
    ["material_count_inconsistency"] else [])

/-! ## Entry point (`analyze_gltf_file`) -/

/-- The returned `GLTFAnalysisResult` dataclass. -/
structure GLTFAnalysisResult where
  file_path : String
  gltf_version : String
  generator : String
  confidence_score : ℚ
  garment_elements : List ElementAnalysis
  fabric_properties : FabricAnalysis
  size_variations : List SizeAnalysis
  accessibility_features : List AccessibilityFeature
  validation_sources : List String
  false_positive_flags : List String
  deriving DecidableEq

/-- The analysis body of `analyze_gltf_file`, after JSON parsing succeeded. -/
def analyzeParsed (file_path : String) (g : GltfData) : GLTFAnalysisResult :=
  let garment_elements := analyze_garment_elements_contextual g
  let fabric_properties := analyze_fabric_properties_advanced g
  let size_variations := analyze_size_variations_validated g
  let accessibility_features := analyze_accessibility_features garment_elements
  { file_path := file_path
    gltf_version := (g.asset.bind (·.version)).getD "Unknown"
    generator := (g.asset.bind (·.generator)).getD "Unknown"
    confidence_score := calculate_overall_confidence garment_elements
      fabric_properties size_variations accessibility_features
    garment_elements := garment_elements
    fabric_properties := fabric_properties
    size_variations := size_variations
    accessibility_features := accessibility_features
    validation_sources := collect_validation_sources fabric_properties
      garment_elements
    false_positive_flags := detect_false_positives g garment_elements
      fabric_properties }

/-- `analyze_gltf_file`: the only `raise` in the function re-raises a JSON
parse failure as `ValueError` ("Archivo GLTF inválido"); the argument is the
outcome of `json.load`, the single effectful step. -/
def analyze_gltf_file (file_path : String) (parsed : Except String GltfData) :
    Except String GLTFAnalysisResult :=
  match parsed with
  | .error e => .error ("Archivo GLTF inválido: " ++ e)
  | .ok g => .ok (analyzeParsed file_path g)

/-! ## Auxiliary notions used by the statements -/

/-- The claim-side subsystem average: mean of the confidences, `0` for a
subsystem with zero detections (spec §4.6). -/
def avg0 (l : List ℚ) : ℚ := if l = [] then 0 else l.sum / l.length

/-- Lookup in an association list (first match; the maps built by
`dictInsert` have unique keys). -/
def dictLookup {α : Type} (k : String) : List (String × α) → Option α
  | [] => none
  | (k', v) :: rest => if k' = k then some v else dictLookup k rest

/-- Last value stored under key `k` in an association list. -/
def lastWithKey {α : Type} (k : String) (l : List (String × α)) : Option α :=
  l.foldl (fun acc p => if p.1 = k then some p.2 else acc) none

/-- One declared material's successful classification (the entry the fold
would insert), `none` when it fails the `> 0.3` retention threshold. -/
def passEntry (ts : List Texture) (imgs : List Image) (im : ℕ × Material) :
    Option (String × MaterialAnalysis) :=
  let ma := analyzeMaterial ts imgs im.1 im.2
  if ma.confidence > 0.3 then some (mat_name im.1 im.2, ma) else none

/-- The materials that classify successfully (pass the `> 0.3` retention
threshold), keyed by their report name, in declaration order — the stream of
successful classifications before the name-keyed dict collapses them. -/
def passingMaterials (g : GltfData) : List (String × MaterialAnalysis) :=
  (g.materials.getD []).enum.filterMap
    (passEntry (g.textures.getD []) (g.images.getD []))

/-! ## Concrete scenes used as test inputs -/

/-- A scene whose top-level collections are all entirely absent. -/
def emptyScene : GltfData :=
  { asset := none, meshes := none, materials := none, textures := none,
    images := none, nodes := none }

/-- Scenario D input: a node named `size_m` with uniform scale `[1,1,1]`. -/
def sceneSizeUnderscore : GltfData :=
  { emptyScene with
    nodes := some [{ name := some "size_m", scale := some [1, 1, 1] }] }

/-- The same node with a hyphenated name, where the `\b` of the size regex
does find a boundary before `m`. -/
def sceneSizeHyphen : GltfData :=
  { emptyScene with
    nodes := some [{ name := some "size-m", scale := some [1, 1, 1] }] }

/-- A material carrying a CLO3D vendor extension together with a PBR block. -/
def cloMaterial : Material :=
  { name := some "fabric",
    cloExt := some { stretchWarp := some 200000, stretchWeft := none,
                     weight := some 120, thickness := some 1 },
    pbr := some { roughnessFactor := some 0.9, metallicFactor := some 0.1,
                  baseColorTexture := none, metallicRoughnessTexture := none },
    normalTexture := none }

/-- A scene with a single CLO3D-extended material. -/
def sceneClo : GltfData := { emptyScene with materials := some [cloMaterial] }

/-- A plain PBR material named `n` with the given roughness. -/
def pbrMaterial (n : String) (rough : ℚ) : Material :=
  { name := some n,
    cloExt := none,
    pbr := some { roughnessFactor := some rough, metallicFactor := some 0,
                  baseColorTexture := none, metallicRoughnessTexture := none },
    normalTexture := none }

/-- Two declared materials share the name "f" and both pass the retention
threshold (rough fabric 0.7 and smooth fabric 0.6). -/
def sceneDupNames : GltfData :=
  { emptyScene with
    materials := some [pbrMaterial "f" 0.9, pbrMaterial "f" 0.1] }

/-! # Theorems -/

/-- C4: for every material with a PBR block, `metallicFactor > 0.7` yields
type `metallic_hardware` with confidence 0.9 regardless of roughness, and a
metallic factor in the closed interval `[0.2, 0.7]` yields no PBR
classification (type `unknown`, confidence 0). -/
theorem pbr_metallic_classification (roughness metallic : ℚ) (nm : String) :
    (metallic > 0.7 → classify_fabric_from_pbr roughness metallic nm =
      { type := "metallic_hardware", confidence := 0.9,
        reasoning := ["High metallic factor indicates metal hardware"] }) ∧
    (0.2 ≤ metallic → metallic ≤ 0.7 →
      (classify_fabric_from_pbr roughness metallic nm).type = "unknown" ∧
      (classify_fabric_from_pbr roughness metallic nm).confidence = 0) := by
  constructor
  · intro h
    simp [classify_fabric_from_pbr, h]
  · intro h1 h2
    have hgt : ¬ metallic > 0.7 := not_lt.mpr h2
    have hlt : ¬ metallic < 0.2 := not_lt.mpr h1
    simp [classify_fabric_from_pbr, hgt, hlt]

/-- Witness for C4 at `metallic = 0.9` and `metallic = 0.45`. -/
theorem pbr_metallic_classification_witness :
    ((0.9 : ℚ) > 0.7 ∧ classify_fabric_from_pbr 0.5 0.9 "x" =
      { type := "metallic_hardware", confidence := 0.9,
        reasoning := ["High metallic factor indicates metal hardware"] }) ∧
    ((0.2 : ℚ) ≤ 0.45 ∧ (0.45 : ℚ) ≤ 0.7 ∧
      (classify_fabric_from_pbr 0.5 0.45 "x").type = "unknown" ∧
      (classify_fabric_from_pbr 0.5 0.45 "x").confidence = 0) := by
  have h1 : (0.9 : ℚ) > 0.7 := of_decide_eq_true (by with_unfolding_all rfl)
  have h2 : (0.2 : ℚ) ≤ 0.45 := of_decide_eq_true (by with_unfolding_all rfl)
  have h3 : (0.45 : ℚ) ≤ 0.7 := of_decide_eq_true (by with_unfolding_all rfl)
  exact ⟨⟨h1, (pbr_metallic_classification 0.5 0.9 "x").1 h1⟩,
         h2, h3, (pbr_metallic_classification 0.5 0.45 "x").2 h2 h3⟩

/-- C5 counterexample: the node named `size_m` with scale `[1,1,1]` yields no
size indicator at all (`\b` finds no boundary between `_` and `m`), so the
node is dropped rather than retained with confidence 1.0. -/
theorem size_underscore_node_dropped :
    sizeIndicatorsFor "size_m" = [] ∧
    analyze_size_variations_validated sceneSizeUnderscore = [] :=
  of_decide_eq_true (by with_unfolding_all rfl)

/-- C5 amended: for a node named `size-m` (a name in which the size token has
a word boundary) carrying scale `[1,1,1]`, the detector produces an
`explicit_sizes` indicator with confidence 0.8, the uniform scale still
counts as `has_scale` giving the +0.2 geometric boost, and the node is
retained with final confidence 1.0. -/
theorem size_hyphen_node_retained :
    analyze_size_variations_validated sceneSizeHyphen =
      [{ node_name := "size-m", node_index := 0,
         size_indicators := [{ type := "explicit_sizes", value := "m",
                               confidence := 0.8 }],
         confidence := 1,
         geometric_validation :=
           some { has_scale := true, uniform_scale := true, scale_factor := 1,
                  scale_variance := 0 } }] :=
  of_decide_eq_true (by with_unfolding_all rfl)

/-- C7 counterexample: a scene graph whose required top-level collections are
all entirely absent is analyzed successfully — no `InvalidInput` failure is
signalled. -/
theorem absent_collections_analyze_ok :
    analyze_gltf_file "model.gltf" (Except.ok emptyScene) =
      Except.ok (analyzeParsed "model.gltf" emptyScene) := rfl

/-- C7 amended: the entry point fails exactly when the input could not be
parsed as JSON (the `ValueError` re-raise); every successfully parsed scene —
absent top-level collections included — produces a full report. -/
theorem failure_only_on_parse_error :
    (∀ (fp : String) (g : GltfData),
      analyze_gltf_file fp (Except.ok g) = Except.ok (analyzeParsed fp g)) ∧
    (∀ (fp e : String),
      analyze_gltf_file fp (Except.error e) =
        Except.error ("Archivo GLTF inválido: " ++ e)) :=
  ⟨fun _ _ => rfl, fun _ _ => rfl⟩

/-- C8 counterexample: on the empty scene the false-positive flag list is not
empty — the empty generator string matches no fashion-tool indicator, so
`generator_not_fashion_specific` is raised. -/
theorem empty_scene_flag_nonempty :
    (analyzeParsed "f.gltf" emptyScene).false_positive_flags ≠ [] :=
  of_decide_eq_true (by with_unfolding_all rfl)

/-- C8 amended: the empty scene is analyzed successfully into a report with
overall confidence 0 and empty garment-element, material, size-variation,
accessibility and validation-source collections; its false-positive flags
hold exactly `generator_not_fashion_specific`. -/
theorem empty_scene_report (fp : String) :
    analyze_gltf_file fp (Except.ok emptyScene) =
      Except.ok
        { file_path := fp, gltf_version := "Unknown", generator := "Unknown",
          confidence_score := 0, garment_elements := [],
          fabric_properties :=
            { materials := [], confidence_distribution := none,
              validation_methods := [] },
          size_variations := [], accessibility_features := [],
          validation_sources := [],
          false_positive_flags := ["generator_not_fashion_specific"] } := by
  with_unfolding_all rfl

/-- C6 counterexample: two retained `zipper` matches whose mesh names have
five context matches and zero resp. one exclusion match both get confidence
exactly 1 (the 1.0 cap absorbs the penalty), so an additional exclusion match
does not yield a strictly smaller confidence. -/
theorem exclusion_penalty_not_strict :
    (∃ cd ∈ detectedElementsFor "zipper_front_back_side_pocket_cuff",
       ∃ m ∈ cd.elements, m.element = "zipper" ∧ m.context_matches.length = 5 ∧
         m.exclusion_flags.length = 0 ∧ m.confidence = 1) ∧
    (∃ cd ∈ detectedElementsFor "zipper_front_back_side_pocket_cuff_texture",
       ∃ m ∈ cd.elements, m.element = "zipper" ∧ m.context_matches.length = 5 ∧
         m.exclusion_flags.length = 1 ∧ m.confidence = 1) ∧
    ¬ final_confidence 5 1 < final_confidence 5 0 :=
  of_decide_eq_true (by with_unfolding_all rfl)

/-- C6 amended: every `ElementMatch` confidence lies in `[0,1]`, and for a
fixed context-match count the confidence is monotonically non-increasing in
the exclusion-match count; the decrease is strict except when the clamp to
`[0,1]` absorbs it (that is, whenever the smaller-exclusion confidence is
positive and the larger-exclusion confidence is below the 1.0 cap). -/
theorem exclusion_penalty_monotone (c e : ℕ) :
    0 ≤ final_confidence c e ∧ final_confidence c e ≤ 1 ∧
    final_confidence c (e + 1) ≤ final_confidence c e ∧
    (0 < final_confidence c e → final_confidence c (e + 1) < 1 →
      final_confidence c (e + 1) < final_confidence c e) := by
  unfold final_confidence
  have hnat : ((e + 1 : ℕ) : ℚ) = (e : ℚ) + 1 := by push_cast; ring
  rw [hnat]
  set r : ℚ := 0.8 + 0.1 * c - 0.3 * e with hr
  have hcast : (0.8 : ℚ) + 0.1 * c - 0.3 * ((e : ℚ) + 1) = r - 0.3 := by
    rw [hr]; ring
  rw [hcast]
  refine ⟨le_min zero_le_one (le_max_left _ _), min_le_left _ _,
    min_le_min le_rfl (max_le_max le_rfl (by linarith)), ?_⟩
  intro hpos hlt1
  have hmaxpos : 0 < max 0 r := lt_of_lt_of_le hpos (min_le_right _ _)
  have hrpos : 0 < r := by
    rcases lt_or_le 0 r with h | h
    · exact h
    · rw [max_eq_left h] at hmaxpos
      exact absurd hmaxpos (lt_irrefl 0)
  have hlt1' : max 0 (r - 0.3) < 1 := by
    rcases lt_or_le (max 0 (r - 0.3)) 1 with h | h
    · exact h
    · rw [min_eq_left h] at hlt1
      exact absurd hlt1 (lt_irrefl 1)
  rw [min_eq_right (le_of_lt hlt1'), max_eq_right (le_of_lt hrpos)]
  rcases le_or_lt (r - 0.3) 0 with h | h
  · rw [max_eq_left h]
    exact lt_min one_pos hrpos
  · rw [max_eq_right (le_of_lt h)]
    exact lt_min (lt_of_le_of_lt (le_max_right 0 (r - 0.3)) hlt1') (by linarith)

/-- Witness for C6 (amended) at one context-free match: one exclusion gives
confidence 0.5, two give 0.2, a strict decrease. -/
theorem exclusion_penalty_monotone_witness :
    0 < final_confidence 0 1 ∧ final_confidence 0 2 < 1 ∧
    final_confidence 0 2 < final_confidence 0 1 := by
  have h1 : 0 < final_confidence 0 1 :=
    of_decide_eq_true (by with_unfolding_all rfl)
  have h2 : final_confidence 0 2 < 1 :=
    of_decide_eq_true (by with_unfolding_all rfl)
  exact ⟨h1, h2, (exclusion_penalty_monotone 0 1).2.2.2 h1 h2⟩

/-! ### Lemmas about the Garment Element Detector -/

/-- What a produced element looks like: its keyword, its confidence (the
float-accumulated clamp on the context/exclusion counts) and the retention
bound. -/
lemma elementFor_spec {pats : CategoryPatterns} {lname kw : String}
    {m : ElementMatch} (h : elementFor pats lname kw = some m) :
    m.element = kw ∧
    m.confidence = final_confidence_float (context_matches pats lname).length
      (exclusion_matches pats lname).length ∧
    final_confidence_float (context_matches pats lname).length
      (exclusion_matches pats lname).length > 0.5 := by
  unfold elementFor at h
  split at h
  · dsimp only at h
    split at h
    · injection h with h'
      subst h'
      exact ⟨rfl, rfl, by assumption⟩
    · exact absurd h (by simp)
  · exact absurd h (by simp)

/-- A keyword occurring in the name whose clamp-formula confidence clears the
threshold produces an element. -/
lemma elementFor_of_confident {pats : CategoryPatterns} {lname kw : String}
    (hsub : occursIn kw lname = true)
    (hconf : final_confidence_float (context_matches pats lname).length
      (exclusion_matches pats lname).length > 0.5) :
    ∃ m, elementFor pats lname kw = some m ∧ m.element = kw := by
  simp only [elementFor, hsub, if_true]
  rw [if_pos hconf]
  exact ⟨_, rfl, rfl⟩

/-- Shape of a built category detection. -/
lemma mkCategoryDetection_spec {cat : String} {els : List ElementMatch}
    {cd : CategoryDetection} (h : mkCategoryDetection cat els = some cd) :
    cd.category = cat ∧ cd.elements = els := by
  cases els with
  | nil => exact absurd h (by simp [mkCategoryDetection])
  | cons e es =>
      injection h with h'
      subst h'
      exact ⟨rfl, rfl⟩

/-- The category table has unique keys. -/
lemma garment_context_patterns_unique {cat : String}
    {p q : CategoryPatterns} (hp : (cat, p) ∈ garment_context_patterns)
    (hq : (cat, q) ∈ garment_context_patterns) : p = q := by
  simp only [garment_context_patterns, List.mem_cons, List.mem_singleton,
    Prod.mk.injEq, List.not_mem_nil, or_false] at hp hq
  rcases hp with ⟨h1, h2⟩ | ⟨h1, h2⟩ | ⟨h1, h2⟩ <;>
    rcases hq with ⟨h3, h4⟩ | ⟨h3, h4⟩ | ⟨h3, h4⟩ <;>
      subst h2 <;> subst h4 <;> subst h1 <;>
        first
          | rfl
          | exact absurd h3 (by decide)

/-- C1 (amended): for a mesh with a non-empty name and a primary keyword of
a category occurring in its lowercased name, a match for that keyword is
kept among the mesh's detections exactly when the confidence computed by the
program — binary64 accumulation of base 0.8, +0.1 per context match and
−0.3 per exclusion match, clamped to [0,1] — exceeds 0.5, and every kept
match for the keyword carries exactly that confidence.  The exact-real clamp
formula differs at rounding boundaries (see the counterexample below). -/
theorem garment_element_confidence_retention
    (rawName cat : String) (pats : CategoryPatterns) (kw : String)
    (hcat : (cat, pats) ∈ garment_context_patterns)
    (hkw : kw ∈ pats.primary)
    (hsub : occursIn kw rawName.toLower = true)
    (_hname : rawName ≠ "") :
    ((∃ cd ∈ detectedElementsFor rawName, cd.category = cat ∧
        ∃ m ∈ cd.elements, m.element = kw) ↔
      final_confidence_float (context_matches pats rawName.toLower).length
        (exclusion_matches pats rawName.toLower).length > 0.5) ∧
    (∀ cd ∈ detectedElementsFor rawName, cd.category = cat →
      ∀ m ∈ cd.elements, m.element = kw →
        m.confidence =
          final_confidence_float (context_matches pats rawName.toLower).length
            (exclusion_matches pats rawName.toLower).length) := by
  have hall : ∀ cd ∈ detectedElementsFor rawName, cd.category = cat →
      ∀ m ∈ cd.elements, m.confidence =
        final_confidence_float (context_matches pats rawName.toLower).length
          (exclusion_matches pats rawName.toLower).length ∧
        final_confidence_float (context_matches pats rawName.toLower).length
          (exclusion_matches pats rawName.toLower).length > 0.5 := by
    intro cd hcd hcdcat m hm
    obtain ⟨⟨c, p⟩, hcp, hmk⟩ := List.mem_filterMap.mp hcd
    obtain ⟨hc, hels⟩ := mkCategoryDetection_spec hmk
    have hc' : c = cat := by rw [← hcdcat, hc]
    subst hc'
    have hpq : p = pats := garment_context_patterns_unique hcp hcat
    subst hpq
    rw [hels] at hm
    obtain ⟨kw', _, hef⟩ := List.mem_filterMap.mp hm
    obtain ⟨_, hconf, hgt⟩ := elementFor_spec hef
    exact ⟨hconf, hgt⟩
  constructor
  · constructor
    · rintro ⟨cd, hcd, hcdcat, m, hm, _⟩
      exact (hall cd hcd hcdcat m hm).2
    · intro hconf
      obtain ⟨m, hef, hel⟩ := elementFor_of_confident hsub hconf
      have hmem : m ∈ categoryElements pats rawName.toLower :=
        List.mem_filterMap.mpr ⟨kw, hkw, hef⟩
      cases hcase : categoryElements pats rawName.toLower with
      | nil => rw [hcase] at hmem; cases hmem
      | cons e es =>
          refine ⟨{ category := cat, elements := e :: es,
                    category_confidence :=
                      listMaxD 0 ((e :: es).map (·.confidence)) },
                  List.mem_filterMap.mpr
                    ⟨(cat, pats), hcat, by
                      show mkCategoryDetection cat
                        (categoryElements pats rawName.toLower) = _
                      rw [hcase]; rfl⟩,
                  rfl, m, ?_, hel⟩
          rw [← hcase]
          exact hmem
  · intro cd hcd hcdcat m hm _
    exact (hall cd hcd hcdcat m hm).1

/-- Witness for C1: mesh `front_zipper`, category `closures`, keyword
`zipper`; one context match (`front`), no exclusions, float confidence
0.9000000000000001 > 0.5, so the match is kept. -/
theorem garment_element_confidence_retention_witness :
    ("zipper" ∈
      ({ primary := ["zipper", "button", "snap", "velcro", "closure",
                     "fastener", "cremallera", "botón"]
         context := ["front", "back", "side", "pocket", "cuff", "collar",
                     "frontal", "lateral"]
         exclusions := ["texture", "pattern", "decoration", "logo", "textura",
                        "patrón", "decoración"] } : CategoryPatterns).primary) ∧
    (∃ cd ∈ detectedElementsFor "front_zipper", cd.category = "closures" ∧
      ∃ m ∈ cd.elements, m.element = "zipper") := by
  refine ⟨by simp, ?_⟩
  refine (garment_element_confidence_retention "front_zipper" "closures"
    { primary := ["zipper", "button", "snap", "velcro", "closure", "fastener",
                  "cremallera", "botón"]
      context := ["front", "back", "side", "pocket", "cuff", "collar",
                  "frontal", "lateral"]
      exclusions := ["texture", "pattern", "decoration", "logo", "textura",
                     "patrón", "decoración"] } "zipper"
    (by simp [garment_context_patterns]) (by simp)
    (of_decide_eq_true (by with_unfolding_all rfl))
    (by simp)).1.mpr (of_decide_eq_true (by with_unfolding_all rfl))

/-- C1 counterexample: on the mesh `zipper_front_back_side_texture_pattern`
(3 context matches: front/back/side; 2 exclusion matches: texture/pattern)
the program computes `0.8 + 0.30000000000000004 - 0.6 = 0.5000000000000001`
in binary64 and keeps the zipper match, while the exact clamp formula of the
claim gives exactly 0.5, which is not > 0.5 — so the claimed
retention-iff-exact-formula is false of the program, and the assigned
confidence differs from the exact formula. -/
theorem garment_element_exact_threshold_counterexample :
    (∃ cd ∈ detectedElementsFor "zipper_front_back_side_texture_pattern",
       cd.category = "closures" ∧ ∃ m ∈ cd.elements, m.element = "zipper" ∧
         m.context_matches.length = 3 ∧ m.exclusion_flags.length = 2 ∧
         m.confidence > 0.5 ∧ m.confidence ≠ final_confidence 3 2) ∧
    ¬ final_confidence 3 2 > 0.5 ∧ final_confidence 3 2 = 0.5 :=
  of_decide_eq_true (by with_unfolding_all rfl)

/-! ### Lemmas about the material pipeline -/

/-- Membership after a dict insert. -/
lemma mem_dictInsert {α : Type} {m : List (String × α)} {k : String} {v : α}
    {p : String × α} (h : p ∈ dictInsert m k v) : p = (k, v) ∨ p ∈ m := by
  induction m with
  | nil => simpa [dictInsert] using h
  | cons kv m ih =>
      obtain ⟨k', v'⟩ := kv
      unfold dictInsert at h
      split at h
      · rcases List.mem_cons.mp h with h | h
        · exact Or.inl h
        · exact Or.inr (List.mem_cons_of_mem _ h)
      · rcases List.mem_cons.mp h with h | h
        · exact Or.inr (h ▸ List.mem_cons_self _ _)
        · rcases ih h with h | h
          · exact Or.inl h
          · exact Or.inr (List.mem_cons_of_mem _ h)

/-- Keys after a dict insert. -/
lemma mem_keys_dictInsert {α : Type} {m : List (String × α)} {k x : String}
    {v : α} : x ∈ (dictInsert m k v).map Prod.fst ↔
      x = k ∨ x ∈ m.map Prod.fst := by
  induction m with
  | nil => simp [dictInsert]
  | cons kv m ih =>
      obtain ⟨k', v'⟩ := kv
      unfold dictInsert
      split
      · subst ‹k' = k›
        simp
      · simp only [List.map_cons, List.mem_cons, ih]
        tauto

/-- `dict.update` never removes keys. -/
lemma mem_keys_dictUpdate {α : Type} (kvs : List (String × α)) :
    ∀ (m : List (String × α)) {x : String}, x ∈ m.map Prod.fst →
      x ∈ (dictUpdate m kvs).map Prod.fst := by
  induction kvs with
  | nil => intro m x h; exact h
  | cons kv kvs ih =>
      intro m x h
      show x ∈ (dictUpdate (dictInsert m kv.1 kv.2) kvs).map Prod.fst
      exact ih _ (mem_keys_dictInsert.mpr (Or.inr h))

/-- The PBR step never lowers the confidence. -/
lemma pbr_step_mono (mat : Material) (lname : String) (ma : MaterialAnalysis) :
    ma.confidence ≤ (pbr_step mat lname ma).confidence := by
  unfold pbr_step
  cases mat.pbr with
  | none => exact le_refl _
  | some p =>
      dsimp only
      split
      · exact le_of_lt (by assumption)
      · exact le_refl _

/-- The texture step never lowers the confidence. -/
lemma tex_step_mono (mat : Material) (ts : List Texture) (imgs : List Image)
    (ma : MaterialAnalysis) :
    ma.confidence ≤ (tex_step mat ts imgs ma).confidence := by
  unfold tex_step
  dsimp only
  split
  · exact le_max_left _ _
  · exact le_refl _

/-- The PBR step only appends validation sources. -/
lemma pbr_step_sources (mat : Material) (lname : String)
    (ma : MaterialAnalysis) :
    ∃ ex, (pbr_step mat lname ma).validation_sources =
      ma.validation_sources ++ ex ∧ (ex = [] ∨ ex = ["PBR_analysis"]) := by
  unfold pbr_step
  cases mat.pbr with
  | none => exact ⟨[], (List.append_nil _).symm, Or.inl rfl⟩
  | some p => exact ⟨["PBR_analysis"], rfl, Or.inr rfl⟩

/-- The texture validator reports either no source or `texture_analysis`. -/
lemma tv_sources (mat : Material) (ts : List Texture) (imgs : List Image) :
    (validate_material_with_textures mat ts imgs).sources = [] ∨
    (validate_material_with_textures mat ts imgs).sources =
      ["texture_analysis"] := by
  unfold validate_material_with_textures
  dsimp only
  split
  · exact Or.inl rfl
  · exact Or.inr rfl

/-- The texture step only appends validation sources. -/
lemma tex_step_sources (mat : Material) (ts : List Texture) (imgs : List Image)
    (ma : MaterialAnalysis) :
    ∃ ex, (tex_step mat ts imgs ma).validation_sources =
      ma.validation_sources ++ ex ∧ (ex = [] ∨ ex = ["texture_analysis"]) := by
  unfold tex_step
  dsimp only
  split
  · exact ⟨(validate_material_with_textures mat ts imgs).sources, rfl,
      tv_sources mat ts imgs⟩
  · exact ⟨[], (List.append_nil _).symm, Or.inl rfl⟩

/-- The PBR step only adds property keys. -/
lemma pbr_step_keys (mat : Material) (lname : String) (ma : MaterialAnalysis) :
    ∀ k ∈ ma.properties.map Prod.fst,
      k ∈ (pbr_step mat lname ma).properties.map Prod.fst := by
  intro k hk
  unfold pbr_step
  cases mat.pbr with
  | none => exact hk
  | some p => exact mem_keys_dictUpdate _ _ hk

/-- The texture step only adds property keys. -/
lemma tex_step_keys (mat : Material) (ts : List Texture) (imgs : List Image)
    (ma : MaterialAnalysis) :
    ∀ k ∈ ma.properties.map Prod.fst,
      k ∈ (tex_step mat ts imgs ma).properties.map Prod.fst := by
  intro k hk
  unfold tex_step
  dsimp only
  split
  · exact mem_keys_dictUpdate _ _ hk
  · exact hk

/-- Without the vendor extension, `CLO3D_extension` never enters the
validation sources of a material analysis. -/
lemma clo_absent_no_tag (ts : List Texture) (imgs : List Image) (idx : ℕ)
    (mat : Material) (hclo : mat.cloExt = none) :
    "CLO3D_extension" ∉ (analyzeMaterial ts imgs idx mat).validation_sources := by
  intro hmem
  have h0 : clo_step mat
      { name := mat_name idx mat, index := idx, properties := [],
        confidence := 0, validation_sources := [] } =
      { name := mat_name idx mat, index := idx, properties := [],
        confidence := 0, validation_sources := [] } := by
    unfold clo_step
    rw [hclo]
  have hm : (analyzeMaterial ts imgs idx mat).validation_sources =
      (tex_step mat ts imgs (pbr_step mat (mat_name idx mat).toLower
        (clo_step mat
          { name := mat_name idx mat, index := idx, properties := [],
            confidence := 0, validation_sources := [] }))).validation_sources :=
    rfl
  rw [hm, h0] at hmem
  obtain ⟨ex2, hex2, hex2'⟩ := tex_step_sources mat ts imgs
    (pbr_step mat (mat_name idx mat).toLower
      { name := mat_name idx mat, index := idx, properties := [],
        confidence := 0, validation_sources := [] })
  rw [hex2] at hmem
  obtain ⟨ex1, hex1, hex1'⟩ := pbr_step_sources mat (mat_name idx mat).toLower
    { name := mat_name idx mat, index := idx, properties := [],
      confidence := 0, validation_sources := [] }
  rw [hex1] at hmem
  rcases List.mem_append.mp hmem with h | h
  · rcases List.mem_append.mp h with h | h
    · simp at h
    · rcases hex1' with he | he <;> rw [he] at h <;> simp_all
  · rcases hex2' with he | he <;> rw [he] at h <;> simp_all

/-- Every entry of the retained materials map is the full analysis of one
declared material that passed the `> 0.3` retention threshold. -/
lemma mem_foldl_fabricStep (ts : List Texture) (imgs : List Image)
    (l : List (ℕ × Material)) :
    ∀ (acc : List (String × MaterialAnalysis) × List String)
      (p : String × MaterialAnalysis),
      p ∈ (l.foldl (fabricStep ts imgs) acc).1 →
      p ∈ acc.1 ∨ ∃ im ∈ l,
        (analyzeMaterial ts imgs im.1 im.2).confidence > 0.3 ∧
        p = (mat_name im.1 im.2, analyzeMaterial ts imgs im.1 im.2) := by
  induction l with
  | nil =>
      intro acc p h
      exact Or.inl h
  | cons im l ih =>
      intro acc p h
      rw [List.foldl_cons] at h
      rcases ih _ p h with h' | ⟨im', him', hpass, hp⟩
      · have hstep : (fabricStep ts imgs acc im).1 =
            if (analyzeMaterial ts imgs im.1 im.2).confidence > 0.3 then
              dictInsert acc.1 (mat_name im.1 im.2)
                (analyzeMaterial ts imgs im.1 im.2)
            else acc.1 := rfl
        rw [hstep] at h'
        by_cases hpass : (analyzeMaterial ts imgs im.1 im.2).confidence > 0.3
        · rw [if_pos hpass] at h'
          rcases mem_dictInsert h' with he | hin
          · exact Or.inr ⟨im, List.mem_cons_self _ _, hpass, he⟩
          · exact Or.inl hin
        · rw [if_neg hpass] at h'
          exact Or.inl h'
      · exact Or.inr ⟨im', List.mem_cons_of_mem _ him', hpass, hp⟩

/-- The retained materials map, unfolded to the accumulating fold. -/
lemma materials_eq_foldl (g : GltfData) :
    (analyze_fabric_properties_advanced g).materials =
      ((g.materials.getD []).enum.foldl
        (fabricStep (g.textures.getD []) (g.images.getD [])) ([], [])).1 := rfl

/-- C2: a retained material whose validation sources include the vendor
extension tag has confidence at least 0.95, and neither the PBR step nor the
texture cross-validation step ever lowers a confidence — each may only add
properties and validation sources. -/
theorem vendor_extension_authority :
    (∀ (g : GltfData),
      ∀ p ∈ (analyze_fabric_properties_advanced g).materials,
        "CLO3D_extension" ∈ p.2.validation_sources → p.2.confidence ≥ 0.95) ∧
    (∀ (mat : Material) (lname : String) (ma : MaterialAnalysis),
      ma.confidence ≤ (pbr_step mat lname ma).confidence ∧
      (∃ ex, (pbr_step mat lname ma).validation_sources =
        ma.validation_sources ++ ex) ∧
      (∀ k ∈ ma.properties.map Prod.fst,
        k ∈ (pbr_step mat lname ma).properties.map Prod.fst)) ∧
    (∀ (mat : Material) (ts : List Texture) (imgs : List Image)
        (ma : MaterialAnalysis),
      ma.confidence ≤ (tex_step mat ts imgs ma).confidence ∧
      (∃ ex, (tex_step mat ts imgs ma).validation_sources =
        ma.validation_sources ++ ex) ∧
      (∀ k ∈ ma.properties.map Prod.fst,
        k ∈ (tex_step mat ts imgs ma).properties.map Prod.fst)) := by
  refine ⟨?_, ?_, ?_⟩
  · intro g p hp hmem
    rw [materials_eq_foldl] at hp
    rcases mem_foldl_fabricStep _ _ _ _ _ hp with h | ⟨im, _, _, hpe⟩
    · cases h
    · rw [hpe] at hmem ⊢
      cases hce : im.2.cloExt with
      | none => exact absurd hmem (clo_absent_no_tag _ _ _ _ hce)
      | some c =>
          have h1 : (clo_step im.2
              { name := mat_name im.1 im.2, index := im.1, properties := [],
                confidence := 0, validation_sources := [] }).confidence =
              0.95 := by
            unfold clo_step
            rw [hce]
          have h2 := pbr_step_mono im.2 (mat_name im.1 im.2).toLower
            (clo_step im.2
              { name := mat_name im.1 im.2, index := im.1, properties := [],
                confidence := 0, validation_sources := [] })
          have h3 := tex_step_mono im.2 (g.textures.getD []) (g.images.getD [])
            (pbr_step im.2 (mat_name im.1 im.2).toLower
              (clo_step im.2
                { name := mat_name im.1 im.2, index := im.1, properties := [],
                  confidence := 0, validation_sources := [] }))
          calc (0.95 : ℚ) = _ := h1.symm
            _ ≤ _ := h2
            _ ≤ (analyzeMaterial (g.textures.getD []) (g.images.getD [])
                  im.1 im.2).confidence := h3
  · intro mat lname ma
    obtain ⟨ex, hex, _⟩ := pbr_step_sources mat lname ma
    exact ⟨pbr_step_mono mat lname ma, ⟨ex, hex⟩, pbr_step_keys mat lname ma⟩
  · intro mat ts imgs ma
    obtain ⟨ex, hex, _⟩ := tex_step_sources mat ts imgs ma
    exact ⟨tex_step_mono mat ts imgs ma, ⟨ex, hex⟩,
      tex_step_keys mat ts imgs ma⟩

/-- Witness for C2: the CLO3D-extended material of `sceneClo` is retained,
carries the vendor-extension tag and keeps confidence ≥ 0.95 although its
PBR classification alone would only give 0.7. -/
theorem vendor_extension_authority_witness :
    ("fabric", analyzeMaterial [] [] 0 cloMaterial) ∈
      (analyze_fabric_properties_advanced sceneClo).materials ∧
    "CLO3D_extension" ∈
      (analyzeMaterial [] [] 0 cloMaterial).validation_sources ∧
    (analyzeMaterial [] [] 0 cloMaterial).confidence ≥ 0.95 := by
  have hmats : (analyze_fabric_properties_advanced sceneClo).materials =
      [("fabric", analyzeMaterial [] [] 0 cloMaterial)] := by
    with_unfolding_all rfl
  have h1 : ("fabric", analyzeMaterial [] [] 0 cloMaterial) ∈
      (analyze_fabric_properties_advanced sceneClo).materials := by
    rw [hmats]
    exact List.mem_singleton.mpr rfl
  have h2 : "CLO3D_extension" ∈
      (analyzeMaterial [] [] 0 cloMaterial).validation_sources :=
    of_decide_eq_true (by with_unfolding_all rfl)
  exact ⟨h1, h2, vendor_extension_authority.1 sceneClo _ h1 h2⟩

/-! ### Lemmas about the false-positive detector -/

/-- An insert-or-replace leaves the map at most one entry longer. -/
lemma dictInsert_length {α : Type} (m : List (String × α)) (k : String)
    (v : α) : (dictInsert m k v).length ≤ m.length + 1 := by
  induction m with
  | nil => simp [dictInsert]
  | cons kv m ih =>
      obtain ⟨k', v'⟩ := kv
      unfold dictInsert
      split
      · simp
      · simpa using Nat.succ_le_succ ih

/-- The retained-materials fold adds at most one entry per declared
material. -/
lemma foldl_fabricStep_length (ts : List Texture) (imgs : List Image)
    (l : List (ℕ × Material)) :
    ∀ (acc : List (String × MaterialAnalysis) × List String),
      (l.foldl (fabricStep ts imgs) acc).1.length ≤ acc.1.length + l.length := by
  induction l with
  | nil => intro acc; simp
  | cons im l ih =>
      intro acc
      rw [List.foldl_cons]
      have h1 := ih (fabricStep ts imgs acc im)
      have h2 : (fabricStep ts imgs acc im).1.length ≤ acc.1.length + 1 := by
        have hstep : (fabricStep ts imgs acc im).1 =
            if (analyzeMaterial ts imgs im.1 im.2).confidence > 0.3 then
              dictInsert acc.1 (mat_name im.1 im.2)
                (analyzeMaterial ts imgs im.1 im.2)
            else acc.1 := rfl
        rw [hstep]
        split
        · exact dictInsert_length _ _ _
        · exact Nat.le_succ _
      calc (l.foldl (fabricStep ts imgs) (fabricStep ts imgs acc im)).1.length
          ≤ (fabricStep ts imgs acc im).1.length + l.length := h1
        _ ≤ acc.1.length + 1 + l.length := Nat.add_le_add_right h2 _
        _ = acc.1.length + (im :: l).length := by simp [Nat.add_comm,
            Nat.add_assoc, Nat.add_left_comm]

/-- The classifier never retains more materials than the scene declares. -/
lemma materials_length_le (g : GltfData) :
    (analyze_fabric_properties_advanced g).materials.length ≤
      (g.materials.getD []).length := by
  rw [materials_eq_foldl]
  have h := foldl_fabricStep_length (g.textures.getD []) (g.images.getD [])
    (g.materials.getD []).enum ([], [])
  simpa [List.enum_length] using h

/-- C9: the `material_count_inconsistency` flag never appears in a report —
the retained materials map is built by iterating and filtering the declared
materials, so its size never exceeds the declared count and the flag's
branch is unreachable. -/
theorem material_count_flag_unreachable (fp : String) (g : GltfData) :
    "material_count_inconsistency" ∉ (analyzeParsed fp g).false_positive_flags := by
  intro h
  have hflags : (analyzeParsed fp g).false_positive_flags =
      detect_false_positives g (analyze_garment_elements_contextual g)
        (analyze_fabric_properties_advanced g) := rfl
  rw [hflags] at h
  unfold detect_false_positives at h
  dsimp only at h
  rcases List.mem_append.mp h with h' | h'
  · rcases List.mem_append.mp h' with h'' | h''
    · split at h''
      · exact absurd h'' (by decide)
      · simp at h''
    · split at h''
      · exact absurd h'' (by decide)
      · simp at h''
  · split at h'
    · exact absurd (by assumption) (not_lt.mpr (materials_length_le g))
    · simp at h'

/-! ### Lemmas about the name-keyed materials dict -/

/-- Lookup after an insert-or-replace. -/
lemma dictLookup_dictInsert {α : Type} (m : List (String × α)) (k' k : String)
    (v : α) : dictLookup k (dictInsert m k' v) =
      if k' = k then some v else dictLookup k m := by
  induction m with
  | nil =>
      unfold dictInsert dictLookup
      split <;> rfl
  | cons kv m ih =>
      obtain ⟨a, b⟩ := kv
      unfold dictInsert
      split
      · subst ‹a = k'›
        unfold dictLookup
        split <;> rfl
      · show dictLookup k ((a, b) :: dictInsert m k' v) = _
        unfold dictLookup
        by_cases hak : a = k
        · rw [if_pos hak, if_neg (fun hkk : k' = k => ‹¬ a = k'› (hkk ▸ hak)),
            if_pos hak]
        · rw [if_neg hak, ih, if_neg hak]

/-- A fold picking the last entry under a key factors through its run from
`none`. -/
lemma foldl_pick {α : Type} (k : String) (l : List (String × α)) :
    ∀ a : Option α,
      l.foldl (fun acc p => if p.1 = k then some p.2 else acc) a =
        match l.foldl (fun acc p => if p.1 = k then some p.2 else acc) none with
        | some v => some v
        | none => a := by
  induction l with
  | nil => intro a; rfl
  | cons p l ih =>
      intro a
      rw [List.foldl_cons, List.foldl_cons, ih (if p.1 = k then some p.2 else a),
        ih (if p.1 = k then some p.2 else none)]
      cases l.foldl (fun acc p => if p.1 = k then some p.2 else acc) none with
      | some v => rfl
      | none =>
          dsimp only
          by_cases hpk : p.1 = k
          · simp only [if_pos hpk]
          · simp only [if_neg hpk]

/-- Peeling one entry off `lastWithKey`. -/
lemma lastWithKey_cons {α : Type} (k : String) (x : String × α)
    (l : List (String × α)) :
    lastWithKey k (x :: l) = match lastWithKey k l with
      | some v => some v
      | none => if x.1 = k then some x.2 else none := by
  unfold lastWithKey
  rw [List.foldl_cons, foldl_pick]

/-- The dict produced by the fold answers lookups with the analysis of the
last (highest-index) passing material of that name. -/
lemma dictLookup_foldl_fabricStep (ts : List Texture) (imgs : List Image)
    (l : List (ℕ × Material)) :
    ∀ (acc : List (String × MaterialAnalysis) × List String) (k : String),
      dictLookup k (l.foldl (fabricStep ts imgs) acc).1 =
        match lastWithKey k (l.filterMap (passEntry ts imgs)) with
        | some v => some v
        | none => dictLookup k acc.1 := by
  induction l with
  | nil => intro acc k; rfl
  | cons im l ih =>
      intro acc k
      rw [List.foldl_cons, ih]
      by_cases hpass : (analyzeMaterial ts imgs im.1 im.2).confidence > 0.3
      · have hfm : (im :: l).filterMap (passEntry ts imgs) =
            (mat_name im.1 im.2, analyzeMaterial ts imgs im.1 im.2) ::
              l.filterMap (passEntry ts imgs) := by
          rw [List.filterMap_cons]
          have : passEntry ts imgs im =
              some (mat_name im.1 im.2, analyzeMaterial ts imgs im.1 im.2) := by
            unfold passEntry
            dsimp only
            rw [if_pos hpass]
          rw [this]
        rw [hfm, lastWithKey_cons]
        have hstep : (fabricStep ts imgs acc im).1 =
            dictInsert acc.1 (mat_name im.1 im.2)
              (analyzeMaterial ts imgs im.1 im.2) := by
          show (if (analyzeMaterial ts imgs im.1 im.2).confidence > 0.3 then
            dictInsert acc.1 (mat_name im.1 im.2)
              (analyzeMaterial ts imgs im.1 im.2) else acc.1) = _
          rw [if_pos hpass]
        rw [hstep, dictLookup_dictInsert]
        cases lastWithKey k (l.filterMap (passEntry ts imgs)) with
        | some v => rfl
        | none =>
            dsimp only
            by_cases hpk : mat_name im.1 im.2 = k
            · simp only [if_pos hpk]
            · simp only [if_neg hpk]
      · have hfm : (im :: l).filterMap (passEntry ts imgs) =
            l.filterMap (passEntry ts imgs) := by
          rw [List.filterMap_cons]
          have : passEntry ts imgs im = none := by
            unfold passEntry
            dsimp only
            rw [if_neg hpass]
          rw [this]
        have hstep : (fabricStep ts imgs acc im).1 = acc.1 := by
          show (if (analyzeMaterial ts imgs im.1 im.2).confidence > 0.3 then
            dictInsert acc.1 (mat_name im.1 im.2)
              (analyzeMaterial ts imgs im.1 im.2) else acc.1) = _
          rw [if_neg hpass]
        rw [hfm, hstep]

/-- Insert-or-replace keeps the keys duplicate-free. -/
lemma keys_dictInsert_nodup {α : Type} {m : List (String × α)}
    (h : (m.map Prod.fst).Nodup) (k : String) (v : α) :
    ((dictInsert m k v).map Prod.fst).Nodup := by
  induction m with
  | nil => simp [dictInsert]
  | cons kv m ih =>
      obtain ⟨k', v'⟩ := kv
      simp only [List.map_cons, List.nodup_cons] at h
      obtain ⟨hnot, hnd⟩ := h
      unfold dictInsert
      split
      · subst ‹k' = k›
        simp only [List.map_cons, List.nodup_cons]
        exact ⟨hnot, hnd⟩
      · simp only [List.map_cons, List.nodup_cons]
        refine ⟨?_, ih hnd⟩
        intro hk'
        rcases mem_keys_dictInsert.mp hk' with he | hm
        · exact ‹¬ k' = k› he
        · exact hnot hm

/-- The materials fold keeps the keys duplicate-free. -/
lemma foldl_fabricStep_keys_nodup (ts : List Texture) (imgs : List Image)
    (l : List (ℕ × Material)) :
    ∀ (acc : List (String × MaterialAnalysis) × List String),
      (acc.1.map Prod.fst).Nodup →
      ((l.foldl (fabricStep ts imgs) acc).1.map Prod.fst).Nodup := by
  induction l with
  | nil => intro acc h; exact h
  | cons im l ih =>
      intro acc h
      rw [List.foldl_cons]
      refine ih _ ?_
      show ((if (analyzeMaterial ts imgs im.1 im.2).confidence > 0.3 then
        dictInsert acc.1 (mat_name im.1 im.2)
          (analyzeMaterial ts imgs im.1 im.2) else acc.1).map Prod.fst).Nodup
      split
      · exact keys_dictInsert_nodup h _ _
      · exact h

/-- C10: the report's materials collection is keyed by material name
(defaulting to `material_<index>` for unnamed materials); its keys are
duplicate-free, a lookup returns the analysis of the highest-index declared
material of that name that passed the 0.3 threshold (later analyses silently
overwrite earlier ones), and on a scene where two passing materials share a
name the retained count is strictly below the number of successful
classifications. -/
theorem materials_mapping_overwrite_semantics :
    (∀ g : GltfData,
      ((analyze_fabric_properties_advanced g).materials.map Prod.fst).Nodup) ∧
    (∀ (g : GltfData) (k : String),
      dictLookup k (analyze_fabric_properties_advanced g).materials =
        lastWithKey k (passingMaterials g)) ∧
    (∀ (i : ℕ) (mat : Material),
      mat_name i mat = mat.name.getD ("material_" ++ toString i)) ∧
    (analyze_fabric_properties_advanced sceneDupNames).materials.length <
      (passingMaterials sceneDupNames).length := by
  refine ⟨?_, ?_, fun _ _ => rfl, ?_⟩
  · intro g
    rw [materials_eq_foldl]
    exact foldl_fabricStep_keys_nodup _ _ _ ([], []) (by simp)
  · intro g k
    rw [materials_eq_foldl, dictLookup_foldl_fabricStep]
    show (match lastWithKey k (passingMaterials g) with
      | some v => some v
      | none => none) = lastWithKey k (passingMaterials g)
    cases lastWithKey k (passingMaterials g) with
    | some v => rfl
    | none => rfl
  · exact of_decide_eq_true (by with_unfolding_all rfl)

/-! ### Confidence bounds for the aggregator -/

/-- A fold of `max` stays below any bound dominating the seed and entries. -/
lemma foldl_max_le {b : ℚ} :
    ∀ (l : List ℚ) (a : ℚ), a ≤ b → (∀ x ∈ l, x ≤ b) → l.foldl max a ≤ b := by
  intro l
  induction l with
  | nil => intro a ha _; exact ha
  | cons x l ih =>
      intro a ha hl
      rw [List.foldl_cons]
      exact ih _ (max_le ha (hl x (List.mem_cons_self _ _)))
        (fun y hy => hl y (List.mem_cons_of_mem _ hy))

/-- The Python `max` of a list is below any bound dominating the default and
the entries. -/
lemma listMaxD_le {d b : ℚ} (hd : d ≤ b) :
    ∀ l : List ℚ, (∀ x ∈ l, x ≤ b) → listMaxD d l ≤ b := by
  intro l h
  cases l with
  | nil => exact hd
  | cons x xs =>
      exact foldl_max_le xs x (h x (List.mem_cons_self _ _))
        (fun y hy => h y (List.mem_cons_of_mem _ hy))

/-- A mean of values that are each at most 1 is at most 1 (0 when empty). -/
lemma avg0_le_one {l : List ℚ} (h : ∀ x ∈ l, x ≤ 1) : avg0 l ≤ 1 := by
  unfold avg0
  split
  · norm_num
  · rename_i hne
    have hlen : 0 < (l.length : ℚ) := by
      have : l ≠ [] := hne
      have : 0 < l.length := List.length_pos.mpr this
      exact_mod_cast this
    rw [div_le_one hlen]
    have := List.sum_le_card_nsmul l 1 h
    simpa using this

/-- The clamp formula never exceeds 1. -/
lemma final_confidence_le_one (c e : ℕ) : final_confidence c e ≤ 1 :=
  min_le_left _ _

/-- The float-accumulated clamp never exceeds 1 either. -/
lemma final_confidence_float_le_one (c e : ℕ) :
    final_confidence_float c e ≤ 1 :=
  min_le_left _ _

/-- Every category detection of a mesh holds elements with confidence at
most 1, and its category confidence is at most 1. -/
lemma detectedElementsFor_conf_le {raw : String} :
    ∀ cd ∈ detectedElementsFor raw,
      (∀ m ∈ cd.elements, m.confidence ≤ 1) ∧ cd.category_confidence ≤ 1 := by
  intro cd hcd
  obtain ⟨⟨c, p⟩, _, hmk⟩ := List.mem_filterMap.mp hcd
  cases hels : categoryElements p raw.toLower with
  | nil =>
      rw [hels] at hmk
      exact absurd hmk (by simp [mkCategoryDetection])
  | cons e es =>
      rw [hels] at hmk
      injection hmk with h
      subst h
      have helem : ∀ m ∈ e :: es, m.confidence ≤ 1 := by
        intro m hm
        rw [← hels] at hm
        obtain ⟨kw, _, hef⟩ := List.mem_filterMap.mp hm
        obtain ⟨_, hconf, _⟩ := elementFor_spec hef
        rw [hconf]
        exact final_confidence_float_le_one _ _
      refine ⟨helem, listMaxD_le (by norm_num) _ ?_⟩
      intro x hx
      obtain ⟨m, hm, hxe⟩ := List.mem_map.mp hx
      rw [← hxe]
      exact helem m hm

/-- Every retained mesh detection has confidence at most 1, and so does each
of its element matches. -/
lemma garment_conf_le (g : GltfData) :
    ∀ ea ∈ analyze_garment_elements_contextual g,
      ea.confidence_score ≤ 1 ∧
      ∀ cd ∈ ea.detected_elements, ∀ m ∈ cd.elements, m.confidence ≤ 1 := by
  intro ea hea
  obtain ⟨im, _, hmk⟩ := List.mem_filterMap.mp hea
  dsimp only at hmk
  split at hmk
  · exact absurd hmk (by simp)
  · rename_i hraw
    cases hdet : detectedElementsFor (im.2.name.getD "") with
    | nil => rw [hdet] at hmk; exact absurd hmk (by simp)
    | cons c cs =>
        rw [hdet] at hmk
        injection hmk with h
        subst h
        have hcats : ∀ cd ∈ c :: cs,
            (∀ m ∈ cd.elements, m.confidence ≤ 1) ∧
            cd.category_confidence ≤ 1 := by
          intro cd hcd
          rw [← hdet] at hcd
          exact detectedElementsFor_conf_le cd hcd
        constructor
        · refine listMaxD_le (by norm_num) _ ?_
          intro x hx
          obtain ⟨cd, hcd, hxe⟩ := List.mem_map.mp hx
          rw [← hxe]
          exact (hcats cd hcd).2
        · intro cd hcd m hm
          exact (hcats cd hcd).1 m hm

/-- Every retained size variation has confidence at most 1. -/
lemma size_conf_le (g : GltfData) :
    ∀ v ∈ analyze_size_variations_validated g, v.confidence ≤ 1 := by
  intro v hv
  obtain ⟨iv, _, hmk⟩ := List.mem_filterMap.mp hv
  dsimp only at hmk
  split at hmk
  · exact absurd hmk (by simp)
  · split at hmk
    · injection hmk with h
      subst h
      show sizeConfidence _ _ ≤ 1
      unfold sizeConfidence
      split
      · norm_num
      · exact min_le_left _ _
    · exact absurd hmk (by simp)

/-- The PBR classifier never reports confidence above 1. -/
lemma classify_conf_le (r m : ℚ) (n : String) :
    (classify_fabric_from_pbr r m n).confidence ≤ 1 := by
  unfold classify_fabric_from_pbr
  dsimp only
  split_ifs <;> norm_num

/-- The texture validator never reports confidence above 1. -/
lemma tv_conf_le (mat : Material) (ts : List Texture) (imgs : List Image) :
    (validate_material_with_textures mat ts imgs).confidence ≤ 1 := by
  unfold validate_material_with_textures
  dsimp only
  split
  · norm_num
  · rename_i f fs heq
    refine listMaxD_le (by norm_num) _ ?_
    intro x hx
    obtain ⟨ti, hti, hxe⟩ := List.mem_map.mp hx
    rw [← hxe]
    have hti' : ti ∈ (textureRefs mat).flatMap (fun tr =>
        match resolveImageName ts imgs tr.2 with
        | none => []
        | some image_name =>
            fabric_indicators.filterMap (fun fi =>
              if fi.2.any (fun ind => occursIn ind image_name) then
                some { type := fi.1, texture_type := tr.1,
                       confidence := if tr.1 = "diffuse" then 0.7 else 0.5,
                       image_name := image_name }
              else none)) := by
      rw [heq]
      exact hti
    obtain ⟨tr, _, hin⟩ := List.mem_flatMap.mp hti'
    cases hres : resolveImageName ts imgs tr.2 with
    | none => rw [hres] at hin; cases hin
    | some nm =>
        rw [hres] at hin
        obtain ⟨fi, _, hif⟩ := List.mem_filterMap.mp hin
        split at hif
        · injection hif with h
          subst h
          dsimp only
          split <;> norm_num
        · exact absurd hif (by simp)

/-- The vendor-extension step keeps the confidence at most 1. -/
lemma clo_step_conf_le (mat : Material) (ma : MaterialAnalysis)
    (h : ma.confidence ≤ 1) : (clo_step mat ma).confidence ≤ 1 := by
  unfold clo_step
  cases mat.cloExt with
  | none => exact h
  | some c => norm_num

/-- The PBR step keeps the confidence at most 1. -/
lemma pbr_step_conf_le (mat : Material) (lname : String)
    (ma : MaterialAnalysis) (h : ma.confidence ≤ 1) :
    (pbr_step mat lname ma).confidence ≤ 1 := by
  unfold pbr_step
  cases mat.pbr with
  | none => exact h
  | some p =>
      dsimp only
      split
      · exact classify_conf_le _ _ _
      · exact h

/-- The texture step keeps the confidence at most 1. -/
lemma tex_step_conf_le (mat : Material) (ts : List Texture)
    (imgs : List Image) (ma : MaterialAnalysis) (h : ma.confidence ≤ 1) :
    (tex_step mat ts imgs ma).confidence ≤ 1 := by
  unfold tex_step
  dsimp only
  split
  · exact max_le h (tv_conf_le mat ts imgs)
  · exact h

/-- A material analysis never reports confidence above 1. -/
lemma analyzeMaterial_conf_le (ts : List Texture) (imgs : List Image) (i : ℕ)
    (mat : Material) : (analyzeMaterial ts imgs i mat).confidence ≤ 1 :=
  tex_step_conf_le _ _ _ _ (pbr_step_conf_le _ _ _
    (clo_step_conf_le _ _ (by norm_num)))

/-- Every retained material has confidence at most 1. -/
lemma materials_conf_le (g : GltfData) :
    ∀ p ∈ (analyze_fabric_properties_advanced g).materials,
      p.2.confidence ≤ 1 := by
  intro p hp
  rw [materials_eq_foldl] at hp
  rcases mem_foldl_fabricStep _ _ _ _ _ hp with h | ⟨im, _, _, hpe⟩
  · cases h
  · rw [hpe]
    exact analyzeMaterial_conf_le _ _ _ _

/-- Every accessibility feature inherits a confidence of at most 1 from its
originating element match. -/
lemma access_conf_le (g : GltfData) :
    ∀ f ∈ analyze_accessibility_features (analyze_garment_elements_contextual g),
      f.confidence ≤ 1 := by
  intro f hf
  obtain ⟨ea, hea, hf1⟩ := List.mem_flatMap.mp hf
  obtain ⟨cd, hcd, hf2⟩ := List.mem_flatMap.mp hf1
  split at hf2
  · obtain ⟨m, hm, hif⟩ := List.mem_filterMap.mp hf2
    dsimp only at hif
    split at hif
    · injection hif with h
      subst h
      exact (garment_conf_le g ea hea).2 cd hcd m hm
    · exact absurd hif (by simp)
  · cases hf2

/-- The factor-list sum of the source equals the weighted-average form of
the claim. -/
lemma calc_overall_eq (A : List ElementAnalysis) (F : FabricAnalysis)
    (S : List SizeAnalysis) (X : List AccessibilityFeature) :
    calculate_overall_confidence A F S X =
      0.4 * avg0 (A.map (·.confidence_score)) +
      0.3 * avg0 (F.materials.map (·.2.confidence)) +
      0.2 * avg0 (S.map (·.confidence)) +
      0.1 * avg0 (X.map (·.confidence)) := by
  unfold calculate_overall_confidence avg0
  cases A <;> cases hF : F.materials <;> cases S <;> cases X <;>
    simp [hF, List.length_map] <;> ring

/-- C3: the overall confidence equals the weighted sum of subsystem average
confidences (weights 0.4 / 0.3 / 0.2 / 0.1, an empty subsystem contributing
exactly 0, with no weight renormalization), and is therefore always at
most 1. -/
theorem overall_confidence_weighted_formula (fp : String) (g : GltfData) :
    (analyzeParsed fp g).confidence_score =
      0.4 * avg0 ((analyzeParsed fp g).garment_elements.map
        (·.confidence_score)) +
      0.3 * avg0 ((analyzeParsed fp g).fabric_properties.materials.map
        (·.2.confidence)) +
      0.2 * avg0 ((analyzeParsed fp g).size_variations.map (·.confidence)) +
      0.1 * avg0 ((analyzeParsed fp g).accessibility_features.map
        (·.confidence)) ∧
    (analyzeParsed fp g).confidence_score ≤ 1 := by
  have heq := calc_overall_eq (analyze_garment_elements_contextual g)
    (analyze_fabric_properties_advanced g)
    (analyze_size_variations_validated g)
    (analyze_accessibility_features (analyze_garment_elements_contextual g))
  refine ⟨heq, ?_⟩
  rw [show (analyzeParsed fp g).confidence_score =
    calculate_overall_confidence (analyze_garment_elements_contextual g)
      (analyze_fabric_properties_advanced g)
      (analyze_size_variations_validated g)
      (analyze_accessibility_features
        (analyze_garment_elements_contextual g)) from rfl, heq]
  have h1 : avg0 ((analyze_garment_elements_contextual g).map
      (·.confidence_score)) ≤ 1 := by
    refine avg0_le_one ?_
    intro x hx
    obtain ⟨ea, hea, hxe⟩ := List.mem_map.mp hx
    rw [← hxe]
    exact (garment_conf_le g ea hea).1
  have h2 : avg0 ((analyze_fabric_properties_advanced g).materials.map
      (·.2.confidence)) ≤ 1 := by
    refine avg0_le_one ?_
    intro x hx
    obtain ⟨p, hp, hxe⟩ := List.mem_map.mp hx
    rw [← hxe]
    exact materials_conf_le g p hp
  have h3 : avg0 ((analyze_size_variations_validated g).map
      (·.confidence)) ≤ 1 := by
    refine avg0_le_one ?_
    intro x hx
    obtain ⟨v, hv, hxe⟩ := List.mem_map.mp hx
    rw [← hxe]
    exact size_conf_le g v hv
  have h4 : avg0 ((analyze_accessibility_features
      (analyze_garment_elements_contextual g)).map (·.confidence)) ≤ 1 := by
    refine avg0_le_one ?_
    intro x hx
    obtain ⟨f, hf, hxe⟩ := List.mem_map.mp hx
    rw [← hxe]
    exact access_conf_le g f hf
  have m1 : (0.4 : ℚ) * avg0 ((analyze_garment_elements_contextual g).map
      (·.confidence_score)) ≤ 0.4 * 1 :=
    mul_le_mul_of_nonneg_left h1 (by norm_num)
  have m2 : (0.3 : ℚ) * avg0 ((analyze_fabric_properties_advanced g).materials.map
      (·.2.confidence)) ≤ 0.3 * 1 :=
    mul_le_mul_of_nonneg_left h2 (by norm_num)
  have m3 : (0.2 : ℚ) * avg0 ((analyze_size_variations_validated g).map
      (·.confidence)) ≤ 0.2 * 1 :=
    mul_le_mul_of_nonneg_left h3 (by norm_num)
  have m4 : (0.1 : ℚ) * avg0 ((analyze_accessibility_features
      (analyze_garment_elements_contextual g)).map (·.confidence)) ≤ 0.1 * 1 :=
    mul_le_mul_of_nonneg_left h4 (by norm_num)
  have hw : (0.4 : ℚ) * 1 + 0.3 * 1 + 0.2 * 1 + 0.1 * 1 = 1 := by norm_num
  linarith [m1, m2, m3, m4]

end Moving
